import Mathlib

/-!
Verification development for the taurus-pro-milvus connection pool and client
wrapper.  The Go sources are shallowly embedded:

* `pkg/milvus/client/options.go` — the `Options` record, `DefaultOptions`,
  and the functional option constructors (`WithAuth`, `WithAPIKey`, ...).
* `pkg/milvus/client/client.go` — the `client` struct (an underlying driver
  handle plus a `closed` flag) and its operations.  The external milvus driver
  is opaque to the wrapper, so each forwarded driver call is abstracted by the
  result it would return; the wrapper's own logic (the mutex-guarded `closed`
  check, the close-once flag) is modelled exactly.  Mutex acquisition itself
  is not modelled: each exported method is a single atomic step.
* `pkg/milvus/pool.go` — the pool: a name-keyed mapping of clients.  The Go
  `map[string]client.Client` is modelled as an association list with at most
  one binding per key along the reachable states; the stored client type is a
  type parameter `H` and its `Close` method is a caller-supplied function
  `closeH : H → Option String` (`none` = Go `nil` error), mirroring the fact
  that the pool only ever calls `Close` through the `client.Client` interface.
  Go `error` results are `Option`/`Except` values carrying the error payload.
-/

namespace TaurusMilvus

/-- Options from client/options.go.  `time.Duration` fields are nanosecond
counts modelled as `Int`; `uint` is `Nat`; `float64` is `Float`. -/
structure Options where
  Address : String
  Username : String
  Password : String
  DBName : String
  EnableTLSAuth : Bool
  APIKey : String
  MaxRetry : Nat
  MaxRetryBackoff : Int
  WithBlock : Bool
  KeepaliveTime : Int
  KeepaliveTimeout : Int
  PermitWithoutStream : Bool
  BaseDelay : Int
  Multiplier : Float
  Jitter : Float
  MaxDelay : Int
  MinConnectTimeout : Int
  MaxRecvMsgSize : Int
  DisableConn : Bool

/-- DefaultOptions from client/options.go. -/
def DefaultOptions : Options where
  Address := "localhost:19530"
  Username := ""
  Password := ""
  DBName := "default"
  EnableTLSAuth := false
  APIKey := ""
  MaxRetry := 75
  MaxRetryBackoff := 3000000000
  WithBlock := true
  KeepaliveTime := 5000000000
  KeepaliveTimeout := 10000000000
  PermitWithoutStream := true
  BaseDelay := 100000000
  Multiplier := 1.6
  Jitter := 0.2
  MaxDelay := 3000000000
  MinConnectTimeout := 3000000000
  MaxRecvMsgSize := 2147483647
  DisableConn := false

/-- WithAddress from client/options.go. -/
def WithAddress (address : String) (o : Options) : Options :=
  { o with Address := address }

/-- WithAuth from client/options.go: sets username/password and clears the
API key (the two authentication forms are mutually exclusive). -/
def WithAuth (username password : String) (o : Options) : Options :=
  { o with Username := username, Password := password, APIKey := "" }

/-- WithAPIKey from client/options.go: sets the API key and clears
username/password. -/
def WithAPIKey (apiKey : String) (o : Options) : Options :=
  { o with APIKey := apiKey, Username := "", Password := "" }

/-- WithDatabase from client/options.go. -/
def WithDatabase (dbName : String) (o : Options) : Options :=
  { o with DBName := dbName }

/-- WithTLS from client/options.go. -/
def WithTLS (o : Options) : Options :=
  { o with EnableTLSAuth := true }

/-- WithRetry from client/options.go. -/
def WithRetry (maxRetry : Nat) (maxBackoff : Int) (o : Options) : Options :=
  { o with MaxRetry := maxRetry, MaxRetryBackoff := maxBackoff }

/-- WithGrpcOpts from client/options.go (also forces WithBlock to true). -/
def WithGrpcOpts (keepaliveTime keepaliveTimeout : Int)
    (permitWithoutStream : Bool) (baseDelay : Int) (multiplier jitter : Float)
    (maxDelay minConnectTimeout : Int) (maxRecvMsgSize : Int)
    (o : Options) : Options :=
  { o with WithBlock := true, KeepaliveTime := keepaliveTime,
           KeepaliveTimeout := keepaliveTimeout,
           PermitWithoutStream := permitWithoutStream, BaseDelay := baseDelay,
           Multiplier := multiplier, Jitter := jitter, MaxDelay := maxDelay,
           MinConnectTimeout := minConnectTimeout,
           MaxRecvMsgSize := maxRecvMsgSize }

/-- WithDisableConn from client/options.go. -/
def WithDisableConn (disable : Bool) (o : Options) : Options :=
  { o with DisableConn := disable }

/-- First-order description of one functional option value, one constructor
per `With...` constructor of client/options.go, carrying its arguments. -/
inductive OptSpec where
  | withAddress (address : String)
  | withAuth (username password : String)
  | withAPIKey (apiKey : String)
  | withDatabase (dbName : String)
  | withTLS
  | withRetry (maxRetry : Nat) (maxBackoff : Int)
  | withGrpcOpts (keepaliveTime keepaliveTimeout : Int)
      (permitWithoutStream : Bool) (baseDelay : Int)
      (multiplier jitter : Float) (maxDelay minConnectTimeout : Int)
      (maxRecvMsgSize : Int)
  | withDisableConn (disable : Bool)

/-- Interpret an `OptSpec` as the corresponding option function. -/
def applyOpt (s : OptSpec) (o : Options) : Options :=
  match s with
  | .withAddress a => WithAddress a o
  | .withAuth u p => WithAuth u p o
  | .withAPIKey k => WithAPIKey k o
  | .withDatabase d => WithDatabase d o
  | .withTLS => WithTLS o
  | .withRetry r b => WithRetry r b o
  | .withGrpcOpts kt kto pws bd m j md mct mrs =>
      WithGrpcOpts kt kto pws bd m j md mct mrs o
  | .withDisableConn d => WithDisableConn d o

/-- Apply a list of options in order, as `New`/`NewWithOptions` do with
`for _, opt := range opts { opt(options) }`. -/
def applyOpts (specs : List OptSpec) (o : Options) : Options :=
  specs.foldl (fun acc s => applyOpt s acc) o

/-- At most one of the two authentication forms is populated. -/
def authExclusive (o : Options) : Prop :=
  o.APIKey = "" ∨ (o.Username = "" ∧ o.Password = "")

/-! ## client/client.go

The `client` struct wraps an opaque driver handle (`cli milvussdk.Client`)
with a `closed` flag behind a mutex.  `D` is the driver handle's type.  Each
exported method first checks `closed` under the lock and otherwise forwards
to the driver; the forwarded driver call is abstracted by its result, passed
in as an argument (`Option String` for Go methods returning only `error`,
`Except String β` for methods returning `(β, error)`). -/
structure MClient (D : Type) where
  cli : D
  closed : Bool

namespace Client

/-- client.CreateCollection: fails with "client is closed" when closed,
otherwise forwards to the driver. -/
def CreateCollection {D : Type} (c : MClient D) (driver : Option String) :
    Option String :=
  if c.closed then some "client is closed" else driver

/-- client.DropCollection. -/
def DropCollection {D : Type} (c : MClient D) (driver : Option String) :
    Option String :=
  if c.closed then some "client is closed" else driver

/-- client.HasCollection: returns `(false, error)` when closed, modelled as
`Except.error`. -/
def HasCollection {D : Type} (c : MClient D) (driver : Except String Bool) :
    Except String Bool :=
  if c.closed then .error "client is closed" else driver

/-- client.LoadCollection. -/
def LoadCollection {D : Type} (c : MClient D) (driver : Option String) :
    Option String :=
  if c.closed then some "client is closed" else driver

/-- client.ReleaseCollection. -/
def ReleaseCollection {D : Type} (c : MClient D) (driver : Option String) :
    Option String :=
  if c.closed then some "client is closed" else driver

/-- client.GetCollectionStatistics; the driver's `map[string]string` result
is a list of key/value pairs. -/
def GetCollectionStatistics {D : Type} (c : MClient D)
    (driver : Except String (List (String × String))) :
    Except String (List (String × String)) :=
  if c.closed then .error "client is closed" else driver

/-- client.CreatePartition. -/
def CreatePartition {D : Type} (c : MClient D) (driver : Option String) :
    Option String :=
  if c.closed then some "client is closed" else driver

/-- client.DropPartition. -/
def DropPartition {D : Type} (c : MClient D) (driver : Option String) :
    Option String :=
  if c.closed then some "client is closed" else driver

/-- client.HasPartition. -/
def HasPartition {D : Type} (c : MClient D) (driver : Except String Bool) :
    Except String Bool :=
  if c.closed then .error "client is closed" else driver

/-- client.LoadPartitions. -/
def LoadPartitions {D : Type} (c : MClient D) (driver : Option String) :
    Option String :=
  if c.closed then some "client is closed" else driver

/-- client.ReleasePartitions. -/
def ReleasePartitions {D : Type} (c : MClient D) (driver : Option String) :
    Option String :=
  if c.closed then some "client is closed" else driver

/-- client.CreateIndex. -/
def CreateIndex {D : Type} (c : MClient D) (driver : Option String) :
    Option String :=
  if c.closed then some "client is closed" else driver

/-- client.DropIndex. -/
def DropIndex {D : Type} (c : MClient D) (driver : Option String) :
    Option String :=
  if c.closed then some "client is closed" else driver

/-- client.GetIndexState: returns `(0, error)` when closed; the
`entity.IndexState` payload is an integer code. -/
def GetIndexState {D : Type} (c : MClient D) (driver : Except String Int) :
    Except String Int :=
  if c.closed then .error "client is closed" else driver

/-- client.Insert: `Col` is the driver's `entity.Column` result type. -/
def Insert {D Col : Type} (c : MClient D) (driver : Except String Col) :
    Except String Col :=
  if c.closed then .error "client is closed" else driver

/-- client.Delete. -/
def Delete {D : Type} (c : MClient D) (driver : Option String) :
    Option String :=
  if c.closed then some "client is closed" else driver

/-- client.Search: `SR` is the driver's `[]client.SearchResult` type. -/
def Search {D SR : Type} (c : MClient D) (driver : Except String SR) :
    Except String SR :=
  if c.closed then .error "client is closed" else driver

/-- client.Query: `QC` is the driver's `[]entity.Column` type. -/
def Query {D QC : Type} (c : MClient D) (driver : Except String QC) :
    Except String QC :=
  if c.closed then .error "client is closed" else driver

/-- client.Close: returns `nil` without touching the driver when already
closed; otherwise sets `closed` and closes the driver.  The returned triple
is (error result, updated client, whether the driver's Close was invoked). -/
def Close {D : Type} (c : MClient D) (driverClose : Option String) :
    Option String × MClient D × Bool :=
  if c.closed then (none, c, false)
  else (driverClose, { c with closed := true }, true)

/-- client.GetClient: returns the underlying driver handle directly, with no
lock and no `closed` check. -/
def GetClient {D : Type} (c : MClient D) : D :=
  c.cli

end Client

/-! ## pkg/milvus/pool.go

The pool stores `client.Client` interface values in `map[string]client.Client`.
The stored client type is a parameter `H`; the only method the pool ever
invokes on a stored client is `Close`, supplied as `closeH : H → Option String`
(`none` = Go `nil` error).  The Go map is an association list; `Add` only
inserts when the key is absent, so keys are unique along reachable states. -/

/-- The pool's error values, one constructor per `fmt.Errorf`/`errors.Wrap`
site in pool.go, carrying the formatted-in data. -/
inductive PErr where
  /-- "client %s not found" (Get, Remove). -/
  | notFound (name : String)
  /-- "client %s already exists" (add). -/
  | alreadyExists (name : String)
  /-- errors.Wrap(err, "failed to create new client") (add). -/
  | creationFailed (cause : String)
  /-- errors.Wrap(err, "failed to close client") (Remove). -/
  | closeFailed (cause : String)
  /-- "failed to close some clients: %v" (Close), carrying the per-client
  "failed to close client %s: %v" (name, cause) entries. -/
  | closeAggregate (failures : List (String × String))
deriving DecidableEq, Repr

/-- The `pool` struct's mutable state: the `clients` map. -/
structure PoolState (H : Type) where
  clients : List (String × H)
deriving DecidableEq, Repr

/-- Lookup in the clients map (`p.clients[name]`). -/
def findClient {H : Type} (name : String) : List (String × H) → Option H
  | [] => none
  | (k, cli) :: rest => if k = name then some cli else findClient name rest

namespace Pool

/-- milvus.NewPool: an empty clients map. -/
def NewPool {H : Type} : PoolState H := ⟨[]⟩

/-- pool.Get: shared lock, return the stored client or "not found". -/
def Get {H : Type} (p : PoolState H) (name : String) : Except PErr H :=
  match findClient name p.clients with
  | some cli => .ok cli
  | none => .error (.notFound name)

/-- pool.add: exclusive lock; reject an existing name, otherwise run the
factory (`client.NewWithOptions`, abstracted by its result) and insert on
success.  The `Bool` records whether the factory was invoked. -/
def add {H : Type} (factory : Except String H) (p : PoolState H)
    (name : String) : Except PErr H × PoolState H × Bool :=
  match findClient name p.clients with
  | some _ => (.error (.alreadyExists name), p, false)
  | none =>
    match factory with
    | .error e => (.error (.creationFailed e), p, true)
    | .ok cli => (.ok cli, ⟨p.clients ++ [(name, cli)]⟩, true)

/-- pool.Add: `add` with the created client discarded. -/
def Add {H : Type} (factory : Except String H) (p : PoolState H)
    (name : String) : Option PErr × PoolState H × Bool :=
  match add factory p name with
  | (.ok _, p', inv) => (none, p', inv)
  | (.error e, p', inv) => (some e, p', inv)

/-- pool.MustGet: try `Get` first; on any error fall through to `add`,
returning `add`'s result (error included) unchanged. -/
def MustGet {H : Type} (factory : Except String H) (p : PoolState H)
    (name : String) : Except PErr H × PoolState H × Bool :=
  match Get p name with
  | .ok cli => (.ok cli, p, false)
  | .error _ => add factory p name

/-- pool.Remove: exclusive lock; if present, close the stored client — on a
close error, return the wrapped error immediately, leaving the map
untouched; only on a successful close delete the entry. -/
def Remove {H : Type} (closeH : H → Option String) (p : PoolState H)
    (name : String) : Option PErr × PoolState H :=
  match findClient name p.clients with
  | some cli =>
    match closeH cli with
    | some e => (some (.closeFailed e), p)
    | none => (none, ⟨p.clients.filter (fun kv => kv.1 != name)⟩)
  | none => (some (.notFound name), p)

/-- pool.Has: shared lock membership check. -/
def Has {H : Type} (p : PoolState H) (name : String) : Bool :=
  (findClient name p.clients).isSome

/-- pool.List: snapshot of the map's keys (source name `List`). -/
def ListNames {H : Type} (p : PoolState H) : List String :=
  p.clients.map Prod.fst

/-- The per-client failures pool.Close collects: for each entry whose close
errs, the "(name, cause)" pair appended to `errs`. -/
def closeFailures {H : Type} (closeH : H → Option String)
    (p : PoolState H) : List (String × String) :=
  p.clients.filterMap (fun kv => (closeH kv.2).map (fun e => (kv.1, e)))

/-- pool.Close: close every stored client, collecting failures; replace the
map with a fresh empty one regardless; return the aggregate error when any
close failed. -/
def Close {H : Type} (closeH : H → Option String) (p : PoolState H) :
    Option PErr × PoolState H :=
  let errs := closeFailures closeH p
  (if errs.isEmpty then none else some (.closeAggregate errs), ⟨[]⟩)

end Pool

/-! ## Interleaving model for concurrent MustGet

`pool.MustGet` is two lock-protected atomic steps: the `Get` (shared lock)
and, when `Get` failed, the `add` (exclusive lock); the code between them is
pure control flow.  A thread executing MustGet is therefore a two-phase
machine, and an interleaving of two concurrent MustGet calls is a schedule of
thread ids. -/

/-- The phase of one thread running `MustGet factory name`. -/
inductive MPhase (H : Type) where
  /-- About to perform the `Get` step. -/
  | start
  /-- `Get` returned an error; about to perform the `add` step. -/
  | adding
  /-- Returned to the caller with result `r`. -/
  | done (r : Except PErr H)

/-- One atomic step of a MustGet thread against the shared pool: returns the
new phase, the new pool state, and how many factory invocations it made. -/
def phaseStep {H : Type} (factory : Except String H) (name : String)
    (ph : MPhase H) (p : PoolState H) : MPhase H × PoolState H × Nat :=
  match ph with
  | .start =>
    match Pool.Get p name with
    | .ok cli => (.done (.ok cli), p, 0)
    | .error _ => (.adding, p, 0)
  | .adding =>
    match Pool.add factory p name with
    | (r, p', inv) => (.done r, p', if inv then 1 else 0)
  | .done r => (.done r, p, 0)

/-- Shared state of two threads concurrently running `MustGet` on the same
name, plus a factory-invocation counter. -/
structure RaceState (H : Type) where
  t1 : MPhase H
  t2 : MPhase H
  pool : PoolState H
  factoryCalls : Nat

/-- Both threads at `start` over the given pool. -/
def raceInit {H : Type} (p : PoolState H) : RaceState H :=
  ⟨.start, .start, p, 0⟩

/-- Let thread `i` (`false` = thread 1, `true` = thread 2) take its next
atomic step. -/
def raceStep {H : Type} (factory : Except String H) (name : String)
    (s : RaceState H) (i : Bool) : RaceState H :=
  if i then
    match phaseStep factory name s.t2 s.pool with
    | (ph, p', k) => { s with t2 := ph, pool := p',
                              factoryCalls := s.factoryCalls + k }
  else
    match phaseStep factory name s.t1 s.pool with
    | (ph, p', k) => { s with t1 := ph, pool := p',
                              factoryCalls := s.factoryCalls + k }

/-- Run a schedule (a list of thread ids) from a race state. -/
def raceRun {H : Type} (factory : Except String H) (name : String)
    (sched : List Bool) (s : RaceState H) : RaceState H :=
  sched.foldl (raceStep factory name) s

/-! ## Helper lemmas -/

/-- Inserting an absent key at the end of the map makes it found. -/
theorem findClient_append_self {H : Type} (name : String) (h : H)
    (l : List (String × H)) (habs : findClient name l = none) :
    findClient name (l ++ [(name, h)]) = some h := by
  induction l with
  | nil => simp [findClient]
  | cons kv rest ih =>
    obtain ⟨k, v⟩ := kv
    by_cases hk : k = name
    · simp [findClient, hk] at habs
    · simp only [findClient, hk, if_false, List.cons_append] at habs ⊢
      exact ih habs

/-- A key is found in the map exactly when it occurs among the keys. -/
theorem findClient_isSome_iff {H : Type} (n : String)
    (l : List (String × H)) :
    (findClient n l).isSome = true ↔ n ∈ l.map Prod.fst := by
  induction l with
  | nil => simp [findClient]
  | cons kv rest ih =>
    obtain ⟨k, v⟩ := kv
    by_cases hk : k = n
    · subst hk
      simp [findClient]
    · have hk' : ¬ n = k := fun h => hk h.symm
      simp [findClient, hk, hk', ih]

/-! ## Claim theorems -/

/-- Claim C3 (confirmed): when `name` is already present, `Add(name, cfg2)`
fails with AlreadyExists, does not invoke the factory, and leaves the pool —
in particular the client stored under `name` — unchanged. -/
theorem add_rejects_duplicate {H : Type} (factory : Except String H)
    (p : PoolState H) (name : String) (cli : H)
    (hmem : findClient name p.clients = some cli) :
    Pool.Add factory p name = (some (.alreadyExists name), p, false) ∧
    findClient name (Pool.Add factory p name).2.1.clients = some cli := by
  have h1 : Pool.add factory p name = (.error (.alreadyExists name), p, false) := by
    simp [Pool.add, hmem]
  exact ⟨by simp [Pool.Add, h1], by simp [Pool.Add, h1, hmem]⟩

/-- Witness for C3 at the one-entry pool {"x" ↦ 1}. -/
theorem add_rejects_duplicate_witness :
    findClient "x" (PoolState.mk [("x", (1 : Nat))]).clients = some 1 ∧
    (Pool.Add (.ok 2) (PoolState.mk [("x", (1 : Nat))]) "x" =
        (some (.alreadyExists "x"), PoolState.mk [("x", 1)], false) ∧
      findClient "x" (Pool.Add (.ok 2) (PoolState.mk [("x", (1 : Nat))])
          "x").2.1.clients = some 1) :=
  ⟨rfl, add_rejects_duplicate (.ok 2) (PoolState.mk [("x", 1)]) "x" 1 rfl⟩

/-- Claim C4 (confirmed): when `name` is absent and the factory fails with
cause `e`, `Add` returns the CreationFailed wrapping of `e`, the factory was
invoked, and the mapping is left exactly as before. -/
theorem add_factory_failure_leaves_pool {H : Type} (p : PoolState H)
    (name : String) (e : String) (habs : findClient name p.clients = none) :
    Pool.Add (.error e) p name = (some (.creationFailed e), p, true) := by
  simp [Pool.Add, Pool.add, habs]

/-- Witness for C4 on the empty pool. -/
theorem add_factory_failure_leaves_pool_witness :
    findClient "x" (Pool.NewPool (H := Nat)).clients = none ∧
    Pool.Add (.error "dial failed") (Pool.NewPool (H := Nat)) "x" =
      (some (.creationFailed "dial failed"), Pool.NewPool, true) :=
  ⟨rfl, add_factory_failure_leaves_pool Pool.NewPool "x" "dial failed" rfl⟩

/-- Claim C6 (confirmed): `MustGet` on an absent name invokes the factory
exactly once and stores the produced client; a second `MustGet` on the
resulting pool returns that same client without invoking the factory and
leaves the pool unchanged. -/
theorem mustGet_get_or_create {H : Type} (p : PoolState H) (name : String)
    (h : H) (habs : findClient name p.clients = none) :
    Pool.MustGet (.ok h) p name =
      (.ok h, PoolState.mk (p.clients ++ [(name, h)]), true) ∧
    Pool.MustGet (.ok h) (PoolState.mk (p.clients ++ [(name, h)])) name =
      (.ok h, PoolState.mk (p.clients ++ [(name, h)]), false) := by
  have hfind := findClient_append_self name h p.clients habs
  exact ⟨by simp [Pool.MustGet, Pool.Get, Pool.add, habs],
    by simp [Pool.MustGet, Pool.Get, hfind]⟩

/-- Witness for C6 on the empty pool. -/
theorem mustGet_get_or_create_witness :
    findClient "y" (Pool.NewPool (H := Nat)).clients = none ∧
    (Pool.MustGet (.ok 5) (Pool.NewPool (H := Nat)) "y" =
        (.ok 5, PoolState.mk [("y", 5)], true) ∧
      Pool.MustGet (.ok 5) (PoolState.mk [("y", (5 : Nat))]) "y" =
        (.ok 5, PoolState.mk [("y", 5)], false)) :=
  ⟨rfl, mustGet_get_or_create Pool.NewPool "y" 5 rfl⟩

/-- Claim C8 (confirmed): `Has(n)` is true exactly when `n` appears in
`List()`, and `List()` of the empty pool is the empty sequence. -/
theorem has_iff_mem_list {H : Type} (p : PoolState H) (n : String) :
    (Pool.Has p n = true ↔ n ∈ Pool.ListNames p) ∧
    Pool.ListNames (Pool.NewPool (H := H)) = [] :=
  ⟨findClient_isSome_iff n p.clients, rfl⟩

/-- Claim C1, amended (the code does not evict on close failure): when the
stored client's close fails, `Remove` returns the wrapped CloseFailed error
and leaves the mapping untouched, so `Has(name)` stays true and a subsequent
`Add` under the same name is still blocked with AlreadyExists. -/
theorem remove_close_failure_keeps_entry {H : Type}
    (closeH : H → Option String) (p : PoolState H) (name : String) (cli : H)
    (e : String) (hmem : findClient name p.clients = some cli)
    (hfail : closeH cli = some e) :
    Pool.Remove closeH p name = (some (.closeFailed e), p) ∧
    Pool.Has p name = true ∧
    ∀ factory : Except String H,
      (Pool.Add factory p name).1 = some (.alreadyExists name) := by
  refine ⟨by simp [Pool.Remove, hmem, hfail], by simp [Pool.Has, hmem], ?_⟩
  intro factory
  simp [Pool.Add, Pool.add, hmem]

/-- Witness for the amended C1 at the pool {"a" ↦ 1} with an always-failing
close. -/
theorem remove_close_failure_keeps_entry_witness :
    (findClient "a" (PoolState.mk [("a", (1 : Nat))]).clients = some 1 ∧
      (fun _ : Nat => some "boom") 1 = some "boom") ∧
    (Pool.Remove (fun _ : Nat => some "boom") (PoolState.mk [("a", 1)]) "a" =
        (some (.closeFailed "boom"), PoolState.mk [("a", 1)]) ∧
      Pool.Has (PoolState.mk [("a", (1 : Nat))]) "a" = true ∧
      ∀ factory : Except String Nat,
        (Pool.Add factory (PoolState.mk [("a", 1)]) "a").1 =
          some (.alreadyExists "a")) :=
  ⟨⟨rfl, rfl⟩, remove_close_failure_keeps_entry (fun _ => some "boom")
    (PoolState.mk [("a", 1)]) "a" 1 "boom" rfl rfl⟩

/-- Counterexample for claim C1 as stated: at the pool {"a" ↦ 1} whose
client's close always fails, `Remove("a")` returns the CloseFailed error but
`Has("a")` is still true afterward, and a subsequent `Add("a", ·)` is
blocked with AlreadyExists — the entry was not evicted. -/
theorem remove_close_failure_cex :
    (Pool.Remove (fun _ : Nat => some "boom")
        (PoolState.mk [("a", 1)]) "a").1 = some (.closeFailed "boom") ∧
    Pool.Has (Pool.Remove (fun _ : Nat => some "boom")
        (PoolState.mk [("a", 1)]) "a").2 "a" = true ∧
    (Pool.Add (.ok (2 : Nat)) (Pool.Remove (fun _ : Nat => some "boom")
        (PoolState.mk [("a", 1)]) "a").2 "a").1 = some (.alreadyExists "a") :=
  ⟨rfl, rfl, rfl⟩

/-- Claim C5 (confirmed): `Close` closes every stored client, replaces the
mapping with a fresh empty one regardless of failures, returns no error
exactly when every close succeeded and otherwise the aggregate of all the
(name, cause) failures; afterward `List()` is empty and a second `Close`
returns no error. -/
theorem close_total_idempotent {H : Type} (closeH : H → Option String)
    (p : PoolState H) :
    (Pool.Close closeH p).2 = Pool.NewPool ∧
    Pool.ListNames (Pool.Close closeH p).2 = [] ∧
    Pool.Close closeH (Pool.Close closeH p).2 = (none, Pool.NewPool) ∧
    ((Pool.Close closeH p).1 = none ↔ ∀ kv ∈ p.clients, closeH kv.2 = none) ∧
    (∀ n e, (n, e) ∈ Pool.closeFailures closeH p ↔
      ∃ cli, (n, cli) ∈ p.clients ∧ closeH cli = some e) ∧
    (Pool.Close closeH p).1 =
      (if (Pool.closeFailures closeH p).isEmpty then none
       else some (.closeAggregate (Pool.closeFailures closeH p))) := by
  refine ⟨rfl, rfl, rfl, ?_, ?_, rfl⟩
  · constructor
    · intro hnone
      have hempty : (Pool.closeFailures closeH p).isEmpty = true := by
        by_contra hne
        simp [Pool.Close, hne] at hnone
      have hnil : Pool.closeFailures closeH p = [] :=
        List.isEmpty_iff.mp hempty
      intro kv hkv
      have := List.filterMap_eq_nil_iff.mp hnil kv hkv
      exact Option.map_eq_none'.mp this
    · intro hall
      have hnil : Pool.closeFailures closeH p = [] := by
        apply List.filterMap_eq_nil_iff.mpr
        intro kv hkv
        simp [hall kv hkv]
      simp [Pool.Close, hnil]
  · intro n e
    constructor
    · intro hmem
      rw [Pool.closeFailures, List.mem_filterMap] at hmem
      obtain ⟨⟨k, cli⟩, hkv, hmap⟩ := hmem
      rw [Option.map_eq_some'] at hmap
      obtain ⟨a, ha, heq⟩ := hmap
      cases heq
      exact ⟨cli, hkv, ha⟩
    · rintro ⟨cli, hkv, hcl⟩
      rw [Pool.closeFailures, List.mem_filterMap]
      exact ⟨(n, cli), hkv, by simp [hcl]⟩

/-- Sanity check tying the interleaving model back to `MustGet`: a thread
scheduled twice with no interference computes exactly `MustGet`'s result,
final pool, and factory-invocation count. -/
theorem raceRun_single_thread {H : Type} (factory : Except String H)
    (p : PoolState H) (name : String) :
    (raceRun factory name [false, false] (raceInit p)).t1 =
      .done (Pool.MustGet factory p name).1 ∧
    (raceRun factory name [false, false] (raceInit p)).pool =
      (Pool.MustGet factory p name).2.1 ∧
    (raceRun factory name [false, false] (raceInit p)).factoryCalls =
      (if (Pool.MustGet factory p name).2.2 then 1 else 0) := by
  cases hg : Pool.Get p name with
  | ok cli =>
    refine ⟨?_, ?_, ?_⟩ <;>
      simp [raceRun, List.foldl, raceStep, raceInit, phaseStep, hg,
        Pool.MustGet]
  | error e =>
    rcases hadd : Pool.add factory p name with ⟨r, p', inv⟩
    refine ⟨?_, ?_, ?_⟩ <;>
      simp [raceRun, List.foldl, raceStep, raceInit, phaseStep, hg, hadd,
        Pool.MustGet]

/-- Claim C2, amended (the loser of the race surfaces AlreadyExists): in the
interleaving where both concurrent `MustGet` calls on the same absent name
pass their `Get` step before either runs `add`, the factory is invoked
exactly once and the winner returns the new client, but the loser returns
the AlreadyExists error to its caller instead of the stored client. -/
theorem mustGet_race_loser_gets_alreadyExists {H : Type} (p : PoolState H)
    (name : String) (h : H) (habs : findClient name p.clients = none) :
    (raceRun (.ok h) name [false, true, false, true] (raceInit p)).t1 =
      .done (.ok h) ∧
    (raceRun (.ok h) name [false, true, false, true] (raceInit p)).t2 =
      .done (.error (.alreadyExists name)) ∧
    (raceRun (.ok h) name [false, true, false, true]
      (raceInit p)).factoryCalls = 1 ∧
    (raceRun (.ok h) name [false, true, false, true] (raceInit p)).pool =
      PoolState.mk (p.clients ++ [(name, h)]) := by
  have hfind := findClient_append_self name h p.clients habs
  have s1 : raceStep (.ok h) name (raceInit p) false =
      ⟨.adding, .start, p, 0⟩ := by
    simp [raceStep, raceInit, phaseStep, Pool.Get, habs]
  have s2 : raceStep (.ok h) name ⟨.adding, .start, p, 0⟩ true =
      ⟨.adding, .adding, p, 0⟩ := by
    simp [raceStep, phaseStep, Pool.Get, habs]
  have s3 : raceStep (.ok h) name ⟨.adding, .adding, p, 0⟩ false =
      ⟨.done (.ok h), .adding, PoolState.mk (p.clients ++ [(name, h)]), 1⟩ := by
    simp [raceStep, phaseStep, Pool.add, habs]
  have s4 : raceStep (.ok h) name
      ⟨.done (.ok h), .adding, PoolState.mk (p.clients ++ [(name, h)]), 1⟩
      true =
      ⟨.done (.ok h), .done (.error (.alreadyExists name)),
        PoolState.mk (p.clients ++ [(name, h)]), 1⟩ := by
    simp [raceStep, phaseStep, Pool.add, hfind]
  simp [raceRun, List.foldl, s1, s2, s3, s4]

/-- Witness for the amended C2 on the empty pool, name "z". -/
theorem mustGet_race_loser_witness :
    findClient "z" (Pool.NewPool (H := Nat)).clients = none ∧
    ((raceRun (.ok 7) "z" [false, true, false, true]
        (raceInit (Pool.NewPool (H := Nat)))).t1 = .done (.ok 7) ∧
      (raceRun (.ok 7) "z" [false, true, false, true]
        (raceInit (Pool.NewPool (H := Nat)))).t2 =
        .done (.error (.alreadyExists "z")) ∧
      (raceRun (.ok 7) "z" [false, true, false, true]
        (raceInit (Pool.NewPool (H := Nat)))).factoryCalls = 1 ∧
      (raceRun (.ok 7) "z" [false, true, false, true]
        (raceInit (Pool.NewPool (H := Nat)))).pool =
        PoolState.mk [("z", 7)]) :=
  ⟨rfl, mustGet_race_loser_gets_alreadyExists Pool.NewPool "z" 7 rfl⟩

/-- Counterexample for claim C2 as stated: in the interleaving
Get₁ Get₂ add₁ add₂ of two concurrent `MustGet("z", cfg)` calls on the
empty pool, the second call returns the AlreadyExists error to its caller
(with the factory invoked exactly once), so not every concurrent `MustGet`
call returns success. -/
theorem mustGet_race_cex :
    (raceRun (.ok (7 : Nat)) "z" [false, true, false, true]
      (raceInit Pool.NewPool)).t2 = .done (.error (.alreadyExists "z")) ∧
    (raceRun (.ok (7 : Nat)) "z" [false, true, false, true]
      (raceInit Pool.NewPool)).factoryCalls = 1 :=
  ⟨rfl, rfl⟩

/-- Claim C7 (confirmed): the first `Close` marks the client permanently
closed (closing the underlying driver once), a repeated `Close` returns no
error without re-closing the driver, and on a closed client every operation
fails with the distinguishable "client is closed" error regardless of what
the driver would have returned. -/
theorem client_closed_gate {D Col SR QC : Type} (d : D)
    (rcl : Option String) :
    Client.Close (MClient.mk d false) rcl =
      (rcl, MClient.mk d true, true) ∧
    Client.Close (MClient.mk d true) rcl =
      (none, MClient.mk d true, false) ∧
    (∀ r, Client.CreateCollection (MClient.mk d true) r =
      some "client is closed") ∧
    (∀ r, Client.DropCollection (MClient.mk d true) r =
      some "client is closed") ∧
    (∀ r : Except String Bool, Client.HasCollection (MClient.mk d true) r =
      .error "client is closed") ∧
    (∀ r, Client.LoadCollection (MClient.mk d true) r =
      some "client is closed") ∧
    (∀ r, Client.ReleaseCollection (MClient.mk d true) r =
      some "client is closed") ∧
    (∀ r : Except String (List (String × String)),
      Client.GetCollectionStatistics (MClient.mk d true) r =
        .error "client is closed") ∧
    (∀ r, Client.CreatePartition (MClient.mk d true) r =
      some "client is closed") ∧
    (∀ r, Client.DropPartition (MClient.mk d true) r =
      some "client is closed") ∧
    (∀ r : Except String Bool, Client.HasPartition (MClient.mk d true) r =
      .error "client is closed") ∧
    (∀ r, Client.LoadPartitions (MClient.mk d true) r =
      some "client is closed") ∧
    (∀ r, Client.ReleasePartitions (MClient.mk d true) r =
      some "client is closed") ∧
    (∀ r, Client.CreateIndex (MClient.mk d true) r =
      some "client is closed") ∧
    (∀ r, Client.DropIndex (MClient.mk d true) r =
      some "client is closed") ∧
    (∀ r : Except String Int, Client.GetIndexState (MClient.mk d true) r =
      .error "client is closed") ∧
    (∀ r : Except String Col, Client.Insert (MClient.mk d true) r =
      .error "client is closed") ∧
    (∀ r, Client.Delete (MClient.mk d true) r =
      some "client is closed") ∧
    (∀ r : Except String SR, Client.Search (MClient.mk d true) r =
      .error "client is closed") ∧
    (∀ r : Except String QC, Client.Query (MClient.mk d true) r =
      .error "client is closed") :=
  ⟨rfl, rfl, fun _ => rfl, fun _ => rfl, fun _ => rfl, fun _ => rfl,
    fun _ => rfl, fun _ => rfl, fun _ => rfl, fun _ => rfl, fun _ => rfl,
    fun _ => rfl, fun _ => rfl, fun _ => rfl, fun _ => rfl, fun _ => rfl,
    fun _ => rfl, fun _ => rfl, fun _ => rfl, fun _ => rfl⟩

/-- Claim C9 (confirmed): `GetClient` returns the underlying driver handle
with no closed-flag check — in particular after `Close` it still returns the
(now closed) driver handle with no error, bypassing the gate that guards the
other operations. -/
theorem getClient_bypasses_closed_gate {D : Type} (d : D) (b : Bool)
    (rcl : Option String) :
    Client.GetClient (MClient.mk d b) = d ∧
    Client.GetClient (Client.Close (MClient.mk d b) rcl).2.1 = d ∧
    (Client.Close (MClient.mk d b) rcl).2.1.closed = true := by
  cases b <;> exact ⟨rfl, rfl, rfl⟩

/-- Each option constructor other than the two authentication setters leaves
the three authentication fields untouched, and the two setters establish
mutual exclusion; hence `authExclusive` is preserved by every option. -/
theorem authExclusive_applyOpt (s : OptSpec) (o : Options)
    (h : authExclusive o) : authExclusive (applyOpt s o) := by
  cases s with
  | withAuth u p => exact Or.inl rfl
  | withAPIKey k => exact Or.inr ⟨rfl, rfl⟩
  | withAddress a => exact h
  | withDatabase d => exact h
  | withTLS => exact h
  | withRetry r b => exact h
  | withGrpcOpts kt kto pws bd m j md mct mrs => exact h
  | withDisableConn d => exact h

/-- `authExclusive` is preserved by any list of options. -/
theorem authExclusive_applyOpts (specs : List OptSpec) :
    ∀ o : Options, authExclusive o → authExclusive (applyOpts specs o) := by
  induction specs with
  | nil => exact fun o h => h
  | cons s rest ih =>
    intro o h
    exact ih (applyOpt s o) (authExclusive_applyOpt s o h)

/-- Claim C10 (confirmed): `WithAuth` sets username/password and clears the
API key, `WithAPIKey` sets the API key and clears username and password, and
after any sequence of option applications starting from `DefaultOptions` at
most one of the two authentication forms is populated. -/
theorem auth_options_mutually_exclusive :
    (∀ (o : Options) (u pw : String),
      (WithAuth u pw o).Username = u ∧ (WithAuth u pw o).Password = pw ∧
        (WithAuth u pw o).APIKey = "") ∧
    (∀ (o : Options) (k : String),
      (WithAPIKey k o).APIKey = k ∧ (WithAPIKey k o).Username = "" ∧
        (WithAPIKey k o).Password = "") ∧
    (∀ specs : List OptSpec,
      authExclusive (applyOpts specs DefaultOptions)) :=
  ⟨fun _ _ _ => ⟨rfl, rfl, rfl⟩, fun _ _ => ⟨rfl, rfl, rfl⟩,
    fun specs => authExclusive_applyOpts specs DefaultOptions (Or.inl rfl)⟩

end TaurusMilvus
